import Mathlib

/-!
Verification of the file-ingestion and schema-inference pipeline of the
AI-Powered-Data-Analytics-Dashboard backend.  The definitions below are a
shallow embedding of the TypeScript code in
src/backend/src/controllers/uploadController.ts,
src/backend/src/middleware/upload.ts and
src/backend/src/models/Dataset.ts.
-/

namespace Dashboard

/-- Oracle for the two JavaScript string classifiers used by detectType:
Date.parse-success and Number( )-success.  The pipeline is parametric in
them because their exact behaviour is a property of the JS runtime. -/
structure StrOracle where
  dateParses : String → Bool
  numParses : String → Bool

/-- Raw decoded JavaScript value as seen by the row processors: null,
undefined, boolean, number (modelled as a rational; Number.isInteger
corresponds to denominator 1), string, array, object. -/
inductive JValue where
  | null
  | undefined
  | bool (b : Bool)
  | num (q : Rat)
  | str (s : String)
  | arr (elems : List JValue)
  | obj (fields : List (String × JValue))

/-- Embedding of detectType (uploadController.ts lines 378-412): null,
undefined and the empty string give the tag null; native numbers give
integer or float by Number.isInteger; booleans give boolean; strings
are tried as a date first, then as a number, else string; arrays give
array and remaining objects give object. -/
def detectType (o : StrOracle) : JValue → String
  | .null => "null"
  | .undefined => "null"
  | .num q => if q.den = 1 then "integer" else "float"
  | .bool _ => "boolean"
  | .str s =>
      if s = "" then "null"
      else if o.dateParses s then "date"
      else if o.numParses s then "number"
      else "string"
  | .arr _ => "array"
  | .obj _ => "object"

/-- Model of JavaScript Set.prototype.add on a list holding the distinct
elements in insertion order. -/
def setAdd (s : List String) (t : String) : List String :=
  if t ∈ s then s else s ++ [t]

/-- Accumulating a whole sequence of observations into a JS Set, starting
from the empty set; the result lists the distinct elements in first
occurrence order, exactly what Array.from of the Set yields. -/
def obsSet (ts : List String) : List String :=
  ts.foldl setAdd []

/-- Tag filtered away by getMostCommonType before frequency resolution. -/
def isNullTag (t : String) : Bool := t == "null" || t == "undefined"

/-- Embedding of the count accumulation in getMostCommonType (lines
426-429): a JS Map from tag to count, keys kept in insertion order. -/
def bumpCount (counts : List (String × Nat)) (t : String) : List (String × Nat) :=
  if counts.any (fun p => p.1 == t) then
    counts.map (fun p => if p.1 = t then (p.1, p.2 + 1) else p)
  else counts ++ [(t, 1)]

/-- Embedding of the maximum scan in getMostCommonType (lines 432-440):
fold over the count map in insertion order, starting from count 0 and
candidate string, replacing the candidate only on a strictly larger
count. -/
def maxScan (counts : List (String × Nat)) : Nat × String :=
  counts.foldl (fun acc p => if p.2 > acc.1 then (p.2, p.1) else acc) (0, "string")

/-- Embedding of getMostCommonType (uploadController.ts lines 415-443). -/
def getMostCommonType (types : List String) : String :=
  match types with
  | [] => "unknown"
  | [t] => t
  | _ =>
    match types.filter (fun t => !(isNullTag t)) with
    | [] => "null"
    | [t] => t
    | ts => (maxScan (ts.foldl bumpCount [])).2

/-- Persisted per-column schema descriptor. -/
structure ColumnDescriptor where
  name : String
  type : String
  nullable : Bool
deriving DecidableEq

/-- Embedding of the columnInfo assembly shared by the three processors
(for example lines 282-288): each accumulated column becomes a
descriptor whose type comes from getMostCommonType on the accumulated
set and whose nullable flag records whether the set holds null or
undefined. -/
def columnInfo (cols : List (String × List String)) : List ColumnDescriptor :=
  cols.map (fun p => ⟨p.1, getMostCommonType p.2, decide ("null" ∈ p.2 ∨ "undefined" ∈ p.2)⟩)

/-- Unified type of one column given the per-row tags it produced, in row
order: the tags are accumulated into a JS Set and the deduplicated
array is resolved by getMostCommonType. -/
def unifyType (rowTags : List String) : String :=
  getMostCommonType (obsSet rowTags)

/-- Nullable flag of one column given the per-row tags it produced. -/
def unifyNullable (rowTags : List String) : Bool :=
  decide ("null" ∈ obsSet rowTags ∨ "undefined" ∈ obsSet rowTags)

/-- Full unification of one column: resolved type plus nullable flag. -/
def unifyColumn (rowTags : List String) : String × Bool :=
  (unifyType rowTags, unifyNullable rowTags)

/-- Distinct non-null tags of a column in first observation order: what
remains of the accumulated set after getMostCommonType filters the
null markers away. -/
def nonNullObs (rowTags : List String) : List String :=
  (obsSet rowTags).filter (fun t => !(isNullTag t))

/-- Model of the ensure-key step `if (!columns.has(key)) columns.set(key,
new Set())` on a JS Map held as an association list in key insertion
order. -/
def ensureKey (cols : List (String × List String)) (name : String) :
    List (String × List String) :=
  if cols.any (fun p => p.1 == name) then cols else cols ++ [(name, [])]

/-- Model of ensure-key followed by `columns.get(key)?.add(type)` on a
JS Map held as an association list with unique keys in insertion
order: the entry for the key receives the tag via Set add, and a
missing key is appended at the end holding the one-element set. -/
def addTag : List (String × List String) → String → String → List (String × List String)
  | [], name, tag => [(name, setAdd [] tag)]
  | p :: rest, name, tag =>
      if p.1 = name then (p.1, setAdd p.2 tag) :: rest
      else p :: addTag rest name tag

/-- Model of a bare `columns.get(header)?.add(type)` without the ensure
step, as the CSV data handler performs it (lines 275-279): a key that
is not in the map is silently skipped by the optional chaining. -/
def addTagExisting : List (String × List String) → String → String → List (String × List String)
  | [], _, _ => []
  | p :: rest, name, tag =>
      if p.1 = name then (p.1, setAdd p.2 tag) :: rest
      else p :: addTagExisting rest name tag

/-- Accumulated tag set of a column in the column map; a missing column
reads as the empty set, as a fresh `new Set()` would. -/
def lookupTypes (cols : List (String × List String)) (name : String) : List String :=
  match cols.find? (fun p => p.1 == name) with
  | some p => p.2
  | none => []

/-- Key list of the column map in insertion order. -/
def keysOf (cols : List (String × List String)) : List String :=
  cols.map (fun p => p.1)

/-- Embedding of the CSV headers handler (lines 267-272): every header
receives an empty tag set, in header order. -/
def initCols (headers : List String) : List (String × List String) :=
  headers.foldl ensureKey []

/-- Key-value pairs a row contributes when the JSON processor runs
`Object.keys(row)` under the guard `typeof row === "object" && row !==
null`: objects contribute their fields, arrays contribute their
elements keyed by the decimal index string, every other value
contributes nothing. -/
def rowKVs : JValue → List (String × JValue)
  | .obj kvs => kvs
  | .arr xs => xs.enum.map (fun p => (toString p.1, p.2))
  | _ => []

/-- Accumulation of one JSON row into the column map (lines 323-333). -/
def accumRow (o : StrOracle) (cols : List (String × List String)) (row : JValue) :
    List (String × List String) :=
  (rowKVs row).foldl (fun cs kv => addTag cs kv.1 (detectType o kv.2)) cols

/-- Accumulation of all rows into the column map, starting empty. -/
def accumRows (o : StrOracle) (rows : List JValue) : List (String × List String) :=
  rows.foldl (accumRow o) []

/-- Test the processor applies to each property value when looking for
the row collection: Array.isArray. -/
def isArrB : JValue → Bool
  | .arr _ => true
  | _ => false

/-- Elements of an array value. -/
def arrElems : JValue → List JValue
  | .arr xs => xs
  | _ => []

/-- Embedding of the row extraction of processJSON (lines 304-317): an
array root is the row list; an object root yields the value of its
first array-valued property, or the object itself as a single row when
no property is array-valued; any other root yields no rows. -/
def jsonRows (data : JValue) : List JValue :=
  match data with
  | .arr xs => xs
  | .obj kvs =>
      match kvs.find? (fun kv => isArrB kv.2) with
      | some kv => arrElems kv.2
      | none => [data]
  | _ => []

/-- Embedding of processJSON (lines 297-342): extract the rows, count
them, accumulate the column map over them and assemble the column
descriptors. -/
def processJSON (o : StrOracle) (data : JValue) : List ColumnDescriptor × Nat :=
  (columnInfo (accumRows o (jsonRows data)), (jsonRows data).length)

/-- Value the CSV data handler reads for a header: `row[header]`, which
is the stored field when present and undefined otherwise. -/
def csvGet (row : List (String × JValue)) (h : String) : JValue :=
  match row.find? (fun kv => kv.1 == h) with
  | some kv => kv.2
  | none => .undefined

/-- Accumulation of one CSV row (lines 273-280): every header of the
header list is visited and the detected tag of the row value for that
header is added to the existing entry. -/
def csvAccumRow (o : StrOracle) (headers : List String)
    (cols : List (String × List String)) (row : List (String × JValue)) :
    List (String × List String) :=
  headers.foldl (fun cs h => addTagExisting cs h (detectType o (csvGet row h))) cols

/-- Embedding of processCSV (lines 256-294) on the already-parsed header
list and row records: initialise one empty set per header, accumulate
every row, count the rows and assemble the descriptors. -/
def processCSV (o : StrOracle) (headers : List String)
    (rows : List (List (String × JValue))) : List ColumnDescriptor × Nat :=
  (columnInfo (rows.foldl (csvAccumRow o headers) (initCols headers)), rows.length)

/-- Embedding of processExcel (lines 345-375) on the row objects that
sheet_to_json returns for the first sheet: same accumulation as the
JSON processor applied to object rows. -/
def processExcel (o : StrOracle) (rows : List (List (String × JValue))) :
    List ColumnDescriptor × Nat :=
  (columnInfo (accumRows o (rows.map JValue.obj)), rows.length)

/-- Result of a successful schema inference. -/
structure SchemaResult where
  columns : List ColumnDescriptor
  rowCount : Nat
deriving DecidableEq

/-- Persisted Dataset record fields the ingestion job touches
(models/Dataset.ts): inferred columns, row count, processing status,
optional error message and the last-modified stamp (modelled as a
natural number clock). -/
structure DatasetRec where
  columns : List ColumnDescriptor
  rowCount : Nat
  processingStatus : String
  errorMessage : Option String
  lastModified : Nat
deriving DecidableEq

/-- Outcome of the parse step the job dispatches on
(lines 221-233): the three supported formats run their processor,
whose promise either resolves with a schema result or rejects with a
message (byte-fetch failures reject these promises as well); any other
declared format throws Unsupported file type. -/
def runAttempt (parsers : String → Except String SchemaResult) (fileType : String) :
    Except String SchemaResult :=
  if fileType = "csv" then parsers "csv"
  else if fileType = "json" then parsers "json"
  else if fileType = "excel" then parsers "excel"
  else Except.error "Unsupported file type"

/-- Embedding of processFileAsync (lines 212-253): the whole attempt sits
in a try block; on success the record receives the columns, the row
count, status completed and a fresh lastModified; on any caught error
the record receives status failed, the error message and a fresh
lastModified.  The function is total: every outcome produces a record
update. -/
def processFileAsync (rec : DatasetRec) (now : Nat)
    (parsers : String → Except String SchemaResult) (fileType : String) : DatasetRec :=
  match runAttempt parsers fileType with
  | Except.ok r =>
      { rec with columns := r.columns, rowCount := r.rowCount,
                 processingStatus := "completed", lastModified := now }
  | Except.error e =>
      { rec with processingStatus := "failed", errorMessage := some e,
                 lastModified := now }

/-- Error value of the CustomError the controllers throw. -/
structure CustomErr where
  message : String
  statusCode : Nat
deriving DecidableEq

/-- Embedding of the processFile endpoint guard (lines 85-123) on a found
dataset record: a record already in processing is rejected with the
CustomError and left untouched; otherwise the record moves to
processing and is saved, which bumps lastModified through the pre-save
hook of the Dataset schema. -/
def processFileEndpoint (rec : DatasetRec) (now : Nat) :
    Option CustomErr × DatasetRec :=
  if rec.processingStatus = "processing" then
    (some ⟨"Dataset is already being processed", 400⟩, rec)
  else
    (none, { rec with processingStatus := "processing", lastModified := now })

/-- Decide whether the pattern list occurs as a leading segment of the
character list. -/
def leadsWith : List Char → List Char → Bool
  | _, [] => true
  | [], _ :: _ => false
  | h :: t, n :: m => (h = n) && leadsWith t m

/-- Decide whether the pattern list occurs as a contiguous segment
anywhere in the character list: the substring containment a JS regex
of plain alternatives tests. -/
def hasSub : List Char → List Char → Bool
  | hay, [] => leadsWith hay []
  | [], _ :: _ => false
  | h :: t, n :: m => leadsWith (h :: t) (n :: m) || hasSub t (n :: m)

/-- Helper of extname: the segment from the last dot to the end of the
character list, when a dot occurs. -/
def extnameAux : List Char → Option (List Char)
  | [] => none
  | c :: rest =>
      match extnameAux rest with
      | some e => some e
      | none => if c = '.' then some ('.' :: rest) else none

/-- Model of path.extname: the suffix from the last dot, empty when no
dot occurs or when the only dot is the leading character. -/
def extname (s : String) : String :=
  match extnameAux s.toList with
  | none => ""
  | some e => if e.length = s.toList.length then "" else String.mk e

/-- Embedding of the extension test of the upload fileFilter
(middleware/upload.ts lines 36-40): the JS regex csv|json|xlsx|xls
tested against the lowercased extension without its dot, which is a
substring containment test for any of the four tokens. -/
def extRegexTest (extNoDot : List Char) : Bool :=
  hasSub extNoDot "csv".toList || hasSub extNoDot "json".toList
    || hasSub extNoDot "xlsx".toList || hasSub extNoDot "xls".toList

/-- Lowercased extension of a filename without its leading dot, as a
character list: ext.toLowerCase followed by substring from index 1. -/
def extNoDotLower (originalname : String) : List Char :=
  ((extname originalname).toList.map Char.toLower).drop 1

/-- MIME allow-list of the upload fileFilter (lines 43-49): one global
list, not paired with the extension. -/
def allowedMimeTypes : List String :=
  ["text/csv", "application/csv", "application/json",
   "application/vnd.ms-excel",
   "application/vnd.openxmlformats-officedocument.spreadsheetml.sheet"]

/-- Embedding of fileFilter (lines 30-63): accept exactly when the
extension passes the regex test and the MIME type is allow-listed. -/
def fileFilter (originalname mimetype : String) : Bool :=
  extRegexTest (extNoDotLower originalname)
    && allowedMimeTypes.contains mimetype

/-- Admission chain in route order (uploadRoutes.ts): the multer
fileFilter, then the size ceiling (multer limits and the
validateFileMetadata double check, lines 139-147), then the emptiness
check (lines 150-156).  The result is the rejection message, or none
when the upload is admitted. -/
def uploadGate (originalname mimetype : String) (size maxSize : Nat) : Option String :=
  if !(fileFilter originalname mimetype) then
    some "Invalid file type. Only CSV, JSON, and Excel files are allowed"
  else if size > maxSize then
    some "File size exceeds maximum limit"
  else if size = 0 then
    some "Uploaded file is empty"
  else
    none

/-- Record-creation boundary: uploadFile (uploadController.ts lines
14-80) runs after the admission middleware, so a Dataset record in
status pending is created exactly for admitted uploads. -/
def uploadPipeline (originalname mimetype : String) (size maxSize now : Nat) :
    Option DatasetRec :=
  match uploadGate originalname mimetype size maxSize with
  | some _ => none
  | none => some ⟨[], 0, "pending", none, now⟩

/-- Tags a single row contributes to a given column name through its
explicitly present key-value pairs. -/
def rowTagsFor (o : StrOracle) (row : JValue) (name : String) : List String :=
  ((rowKVs row).filter (fun kv => kv.1 == name)).map (fun kv => detectType o kv.2)

/-- Tags a whole row list contributes to a given column name, in
traversal order; a row in which the name is absent contributes
nothing. -/
def colTags (o : StrOracle) (rows : List JValue) (name : String) : List String :=
  (rows.map (fun row => rowTagsFor o row name)).flatten

/-- Oracle under which no string parses as a date or as a number; used
to instantiate theorems on inputs whose values are not strings. -/
def oracle0 : StrOracle := ⟨fun _ => false, fun _ => false⟩

/-- Oracle recording the JS runtime facts the C6 example relies on:
Date.parse ("2024") succeeds and Number ("2024") succeeds. -/
def oracle2024 : StrOracle := ⟨fun s => s == "2024", fun s => s == "2024"⟩

theorem mem_setAdd (s : List String) (t x : String) :
    x ∈ setAdd s t ↔ x ∈ s ∨ x = t := by
  simp only [setAdd]
  split
  · constructor
    · exact Or.inl
    · rintro (hx | rfl)
      · exact hx
      · assumption
  · simp [List.mem_append]

theorem nodup_setAdd (s : List String) (t : String) (h : s.Nodup) :
    (setAdd s t).Nodup := by
  simp only [setAdd]
  split
  · exact h
  · rename_i ht
    simp [List.nodup_append, h, ht]

theorem mem_foldl_setAdd (ts : List String) (acc : List String) (x : String) :
    x ∈ ts.foldl setAdd acc ↔ x ∈ acc ∨ x ∈ ts := by
  induction ts generalizing acc with
  | nil => simp
  | cons t ts ih =>
      simp only [List.foldl_cons, ih, mem_setAdd, List.mem_cons]
      tauto

theorem mem_obsSet (ts : List String) (x : String) :
    x ∈ obsSet ts ↔ x ∈ ts := by
  simp [obsSet, mem_foldl_setAdd]

theorem nodup_obsSet (ts : List String) : (obsSet ts).Nodup := by
  have h : ∀ acc : List String, acc.Nodup → (ts.foldl setAdd acc).Nodup := by
    induction ts with
    | nil => intro acc hacc; simpa using hacc
    | cons t ts ih =>
        intro acc hacc
        exact ih _ (nodup_setAdd acc t hacc)
  exact h [] (by simp)

theorem bumpCount_fresh (acc : List (String × Nat)) (t : String)
    (h : acc.any (fun p => p.1 == t) = false) :
    bumpCount acc t = acc ++ [(t, 1)] := by
  simp [bumpCount, h]

theorem foldl_bumpCount_of_nodup :
    ∀ (l : List String) (acc : List (String × Nat)),
      l.Nodup → (∀ t ∈ l, acc.any (fun p => p.1 == t) = false) →
      l.foldl bumpCount acc = acc ++ l.map (fun t => (t, 1)) := by
  intro l
  induction l with
  | nil => intro acc _ _; simp
  | cons t l ih =>
      intro acc hnd hfresh
      have ht : acc.any (fun p => p.1 == t) = false := hfresh t (by simp)
      have hfresh2 : ∀ u ∈ l, (acc ++ [(t, 1)]).any (fun p => p.1 == u) = false := by
        intro u hu
        have hut : t ≠ u := by
          intro h
          exact (List.nodup_cons.mp hnd).1 (h ▸ hu)
        simp [List.any_append, hfresh u (List.mem_cons_of_mem _ hu), hut]
      have := ih (acc ++ [(t, 1)]) (List.nodup_cons.mp hnd).2 hfresh2
      simp only [List.foldl_cons, bumpCount_fresh acc t ht, this, List.map_cons,
        List.append_assoc, List.singleton_append]

theorem foldl_max_ones (l : List String) :
    ∀ a : Nat × String, 1 ≤ a.1 →
      (l.map (fun t => (t, 1))).foldl
        (fun acc p => if p.2 > acc.1 then (p.2, p.1) else acc) a = a := by
  induction l with
  | nil => intro a _; simp
  | cons t l ih =>
      intro a ha
      have hlt : ¬ ((t, 1).2 > a.1) := by
        simp only [gt_iff_lt, not_lt]
        exact ha
      simp only [List.map_cons, List.foldl_cons, if_neg hlt]
      exact ih a ha

theorem maxScan_ones_cons (t : String) (l : List String) :
    maxScan ((t :: l).map (fun t => (t, 1))) = (1, t) := by
  have h0 : ((t, 1).2 > (((0 : Nat), "string")).1) := by simp
  simp only [maxScan, List.map_cons, List.foldl_cons, if_pos h0]
  exact foldl_max_ones l (1, t) (by simp)

theorem getMostCommonType_multi (S : List String) (hnd : S.Nodup)
    (h2 : 2 ≤ (S.filter (fun t => !(isNullTag t))).length) :
    getMostCommonType S = (S.filter (fun t => !(isNullTag t))).headD "string" := by
  have hS2 : 2 ≤ S.length := le_trans h2 (S.length_filter_le _)
  match S, hnd, h2, hS2 with
  | a :: b :: rest, hnd, h2, hS2 =>
    obtain ⟨c, F, hF⟩ : ∃ c F, (a :: b :: rest).filter (fun t => !(isNullTag t)) = c :: F := by
      match hFe : (a :: b :: rest).filter (fun t => !(isNullTag t)), h2 with
      | c :: F, _ => exact ⟨c, F, rfl⟩
    obtain ⟨d, F2, hF2⟩ : ∃ d F2, F = d :: F2 := by
      rw [hF] at h2
      match F, h2 with
      | d :: F2, _ => exact ⟨d, F2, rfl⟩
    subst hF2
    have hndF : (c :: d :: F2).Nodup := hF ▸ hnd.filter _
    have hcounts := foldl_bumpCount_of_nodup (c :: d :: F2) [] hndF (by simp)
    simp only [getMostCommonType, hF, hcounts, List.nil_append, maxScan_ones_cons,
      List.headD_cons]

/-- C1 (amended): the per-column observations are stored in a JS Set, so
the frequency resolution in getMostCommonType receives each distinct
tag exactly once; whenever more than one distinct non-null tag was
observed, every count is one and the scan keeps the first-observed
distinct non-null tag, which is returned — the row counts and the
string tie fallback of the claim play no role.  The two examples of
the claim hold only because string is the first-observed tag there. -/
theorem c1_frequency_resolution (rowTags : List String)
    (h : 2 ≤ (nonNullObs rowTags).length) :
    unifyType rowTags = (nonNullObs rowTags).headD "string" := by
  have h2 : 2 ≤ ((obsSet rowTags).filter (fun t => !(isNullTag t))).length := h
  simpa [unifyType, nonNullObs] using
    getMostCommonType_multi (obsSet rowTags) (nodup_obsSet rowTags) h2

/-- C1 witness: a column with row tags [string, integer] has two distinct
non-null tags and unifies to the first-observed tag string. -/
theorem c1_frequency_resolution_witness :
    2 ≤ (nonNullObs ["string", "integer"]).length
    ∧ unifyType ["string", "integer"] = (nonNullObs ["string", "integer"]).headD "string" :=
  ⟨by decide, c1_frequency_resolution ["string", "integer"] (by decide)⟩

/-- C1 counterexample: the claim predicts integer for row tags
[string, integer, integer] (two rows beat one) and string for the tie
[integer, string]; the code returns string for the former and integer
for the latter, because the Set deduplicates the tags and the scan
keeps the first-observed one. -/
theorem c1_counterexample :
    unifyType ["string", "integer", "integer"] = "string"
    ∧ ("string" : String) ≠ "integer"
    ∧ unifyType ["integer", "string"] = "integer"
    ∧ ("integer" : String) ≠ "string" := by decide

theorem lookupTypes_nil (name : String) : lookupTypes [] name = [] := rfl

theorem lookupTypes_cons (p : String × List String) (cols : List (String × List String))
    (name : String) :
    lookupTypes (p :: cols) name = if p.1 = name then p.2 else lookupTypes cols name := by
  by_cases h : p.1 = name
  · simp [lookupTypes, List.find?_cons_of_pos, h]
  · rw [if_neg h]
    simp only [lookupTypes]
    rw [List.find?_cons_of_neg]
    simpa using h

theorem lookupTypes_addTag (cols : List (String × List String)) (n t m : String) :
    lookupTypes (addTag cols n t) m
      = if m = n then setAdd (lookupTypes cols n) t else lookupTypes cols m := by
  induction cols with
  | nil =>
      by_cases h : m = n
      · subst h
        simp [addTag, lookupTypes_cons, lookupTypes_nil]
      · have hnm : ¬ (n = m) := fun hh => h hh.symm
        rw [if_neg h]
        show lookupTypes [(n, setAdd [] t)] m = lookupTypes [] m
        rw [lookupTypes_cons, if_neg hnm]
  | cons p rest ih =>
      by_cases hp : p.1 = n
      · rw [show addTag (p :: rest) n t = (p.1, setAdd p.2 t) :: rest from by
          simp [addTag, hp]]
        by_cases hm : m = n
        · subst hm
          rw [if_pos rfl, lookupTypes_cons, lookupTypes_cons, if_pos hp, if_pos hp]
        · have hpm : ¬ (p.1 = m) := by rw [hp]; exact fun hh => hm hh.symm
          rw [if_neg hm, lookupTypes_cons, if_neg hpm, lookupTypes_cons, if_neg hpm]
      · rw [show addTag (p :: rest) n t = p :: addTag rest n t from by
          simp [addTag, hp]]
        by_cases hm : m = n
        · subst hm
          rw [if_pos rfl, lookupTypes_cons, ih, if_pos rfl, lookupTypes_cons,
            if_neg hp, if_neg hp]
        · rw [if_neg hm, lookupTypes_cons, ih, if_neg hm, lookupTypes_cons]

theorem keysOf_addTag (cols : List (String × List String)) (n t : String) :
    keysOf (addTag cols n t)
      = if n ∈ keysOf cols then keysOf cols else keysOf cols ++ [n] := by
  induction cols with
  | nil => simp [addTag, keysOf]
  | cons p rest ih =>
      by_cases hp : p.1 = n
      · simp [addTag, keysOf, hp]
      · have hne : ¬ (n = p.1) := fun hh => hp hh.symm
        simp only [addTag, if_neg hp, keysOf, List.map_cons, List.mem_cons, hne,
          false_or] at ih ⊢
        rw [ih]
        split <;> simp

theorem mem_keysOf_addTag (cols : List (String × List String)) (n t m : String) :
    m ∈ keysOf (addTag cols n t) ↔ m ∈ keysOf cols ∨ m = n := by
  rw [keysOf_addTag]
  split
  · rename_i hn
    constructor
    · exact Or.inl
    · rintro (hm | rfl)
      · exact hm
      · exact hn
  · simp

theorem nodup_keysOf_addTag (cols : List (String × List String)) (n t : String)
    (h : (keysOf cols).Nodup) : (keysOf (addTag cols n t)).Nodup := by
  rw [keysOf_addTag]
  split
  · exact h
  · rename_i hn
    simp [List.nodup_append, h, hn]

theorem lookupTypes_foldl_addTag (o : StrOracle) :
    ∀ (kvs : List (String × JValue)) (cols : List (String × List String)) (name : String),
      lookupTypes (kvs.foldl (fun cs kv => addTag cs kv.1 (detectType o kv.2)) cols) name
        = ((kvs.filter (fun kv => kv.1 == name)).map (fun kv => detectType o kv.2)).foldl
            setAdd (lookupTypes cols name) := by
  intro kvs
  induction kvs with
  | nil => intro cols name; simp
  | cons kv rest ih =>
      intro cols name
      by_cases h : kv.1 = name
      · subst h
        rw [List.filter_cons_of_pos (by simp)]
        simp only [List.foldl_cons, List.map_cons, ih, lookupTypes_addTag,
          eq_self_iff_true, if_true]
      · have hne : ¬ (name = kv.1) := fun hh => h hh.symm
        rw [List.filter_cons_of_neg (by simpa using h)]
        simp only [List.foldl_cons, ih, lookupTypes_addTag, if_neg hne]

theorem mem_keys_foldl_addTag (o : StrOracle) :
    ∀ (kvs : List (String × JValue)) (cols : List (String × List String)) (name : String),
      name ∈ keysOf (kvs.foldl (fun cs kv => addTag cs kv.1 (detectType o kv.2)) cols)
        ↔ name ∈ keysOf cols ∨ ∃ kv ∈ kvs, kv.1 = name := by
  intro kvs
  induction kvs with
  | nil => intro cols name; simp
  | cons kv rest ih =>
      intro cols name
      simp only [List.foldl_cons, ih, mem_keysOf_addTag, List.mem_cons]
      constructor
      · rintro ((h | rfl) | h)
        · exact Or.inl h
        · exact Or.inr ⟨kv, Or.inl rfl, rfl⟩
        · obtain ⟨p, hp, hpn⟩ := h
          exact Or.inr ⟨p, Or.inr hp, hpn⟩
      · rintro (h | ⟨p, (rfl | hp), hpn⟩)
        · exact Or.inl (Or.inl h)
        · exact Or.inl (Or.inr hpn.symm)
        · exact Or.inr ⟨p, hp, hpn⟩

theorem nodup_keys_foldl_addTag (o : StrOracle) :
    ∀ (kvs : List (String × JValue)) (cols : List (String × List String)),
      (keysOf cols).Nodup →
      (keysOf (kvs.foldl (fun cs kv => addTag cs kv.1 (detectType o kv.2)) cols)).Nodup := by
  intro kvs
  induction kvs with
  | nil => intro cols h; exact h
  | cons kv rest ih =>
      intro cols h
      exact ih _ (nodup_keysOf_addTag cols kv.1 _ h)

theorem lookupTypes_accumRow (o : StrOracle) (cols : List (String × List String))
    (row : JValue) (name : String) :
    lookupTypes (accumRow o cols row) name
      = (rowTagsFor o row name).foldl setAdd (lookupTypes cols name) := by
  simp [accumRow, rowTagsFor, lookupTypes_foldl_addTag]

theorem lookupTypes_foldl_accumRow (o : StrOracle) :
    ∀ (rows : List JValue) (cols : List (String × List String)) (name : String),
      lookupTypes (rows.foldl (accumRow o) cols) name
        = (colTags o rows name).foldl setAdd (lookupTypes cols name) := by
  intro rows
  induction rows with
  | nil => intro cols name; simp [colTags]
  | cons row rest ih =>
      intro cols name
      simp only [List.foldl_cons, ih, lookupTypes_accumRow, colTags, List.map_cons,
        List.flatten_cons, List.foldl_append]

theorem lookupTypes_accumRows (o : StrOracle) (rows : List JValue) (name : String) :
    lookupTypes (accumRows o rows) name = obsSet (colTags o rows name) := by
  simp [accumRows, lookupTypes_foldl_accumRow, obsSet, lookupTypes_nil]

theorem mem_keys_foldl_accumRow (o : StrOracle) :
    ∀ (rows : List JValue) (cols : List (String × List String)) (name : String),
      name ∈ keysOf (rows.foldl (accumRow o) cols)
        ↔ name ∈ keysOf cols ∨ ∃ row ∈ rows, ∃ kv ∈ rowKVs row, kv.1 = name := by
  intro rows
  induction rows with
  | nil => intro cols name; simp
  | cons row rest ih =>
      intro cols name
      simp only [List.foldl_cons, ih, accumRow, mem_keys_foldl_addTag, List.mem_cons]
      constructor
      · rintro ((h | h) | h)
        · exact Or.inl h
        · exact Or.inr ⟨row, Or.inl rfl, h⟩
        · obtain ⟨r, hr, hkv⟩ := h
          exact Or.inr ⟨r, Or.inr hr, hkv⟩
      · rintro (h | ⟨r, (rfl | hr), hkv⟩)
        · exact Or.inl (Or.inl h)
        · exact Or.inl (Or.inr hkv)
        · exact Or.inr ⟨r, hr, hkv⟩

theorem mem_keys_accumRows (o : StrOracle) (rows : List JValue) (name : String) :
    name ∈ keysOf (accumRows o rows)
      ↔ ∃ row ∈ rows, ∃ kv ∈ rowKVs row, kv.1 = name := by
  rw [accumRows, mem_keys_foldl_accumRow]
  simp [keysOf]

theorem nodup_keys_accumRows (o : StrOracle) (rows : List JValue) :
    (keysOf (accumRows o rows)).Nodup := by
  have h : ∀ (rs : List JValue) (cols : List (String × List String)),
      (keysOf cols).Nodup → (keysOf (rs.foldl (accumRow o) cols)).Nodup := by
    intro rs
    induction rs with
    | nil => intro cols hc; exact hc
    | cons row rest ih =>
        intro cols hc
        exact ih _ (nodup_keys_foldl_addTag o (rowKVs row) cols hc)
  exact h rows [] (by simp [keysOf])

theorem lookupTypes_of_mem (cols : List (String × List String))
    (p : String × List String) (hnd : (keysOf cols).Nodup) (hp : p ∈ cols) :
    lookupTypes cols p.1 = p.2 := by
  induction cols with
  | nil => cases hp
  | cons q rest ih =>
      rcases List.mem_cons.mp hp with rfl | hp
      · simp [lookupTypes_cons]
      · have hq : ¬ (q.1 = p.1) := by
          intro hh
          have : q.1 ∈ keysOf rest := hh ▸ List.mem_map_of_mem _ hp
          exact (List.nodup_cons.mp hnd).1 this
        rw [lookupTypes_cons, if_neg hq]
        exact ih (List.nodup_cons.mp hnd).2 hp

theorem columnInfo_filter_name (cols : List (String × List String)) (name : String) :
    (columnInfo cols).filter (fun d => d.name == name)
      = (cols.filter (fun p => p.1 == name)).map
          (fun p => (⟨p.1, getMostCommonType p.2,
            decide ("null" ∈ p.2 ∨ "undefined" ∈ p.2)⟩ : ColumnDescriptor)) := by
  simp only [columnInfo, List.filter_map]
  rfl

theorem length_filter_columnInfo (cols : List (String × List String)) (name : String)
    (hnd : (keysOf cols).Nodup) (hmem : name ∈ keysOf cols) :
    ((columnInfo cols).filter (fun d => d.name == name)).length = 1 := by
  rw [columnInfo_filter_name, List.length_map]
  have h1 : (cols.filter (fun p => p.1 == name)).length
      = List.countP (fun p => p.1 == name) cols := (List.countP_eq_length_filter _ _).symm
  have h2 : List.countP (fun p => p.1 == name) cols
      = List.count name (keysOf cols) := by
    rw [keysOf, List.count, List.countP_map]
    rfl
  rw [h1, h2, List.count_eq_one_of_mem hnd hmem]

theorem nullable_columnInfo (cols : List (String × List String)) (name : String)
    (hnd : (keysOf cols).Nodup) :
    ∀ d ∈ columnInfo cols, d.name = name →
      (d.nullable = true ↔
        "null" ∈ lookupTypes cols name ∨ "undefined" ∈ lookupTypes cols name) := by
  intro d hd hdn
  obtain ⟨p, hp, rfl⟩ := List.mem_map.mp hd
  have hp1 : p.1 = name := hdn
  have hlk : lookupTypes cols name = p.2 := by
    rw [← hp1]
    exact lookupTypes_of_mem cols p hnd hp
  simp [hlk]

/-- C2 (amended): in the JSON and Excel processors a column name that
occurs explicitly in at least one visited row yields exactly one
ColumnDescriptor, and its nullable flag is true exactly when a null
tag was detected for one of its explicitly present values; a row from
which the name is absent contributes no observation at all, so absence
alone never forces nullable = true. -/
theorem c2_absent_no_null (o : StrOracle) (rows : List JValue) (name : String)
    (hocc : ∃ row ∈ rows, ∃ kv ∈ rowKVs row, kv.1 = name) :
    ((columnInfo (accumRows o rows)).filter (fun d => d.name == name)).length = 1
    ∧ ∀ d ∈ columnInfo (accumRows o rows), d.name = name →
        (d.nullable = true ↔
          "null" ∈ colTags o rows name ∨ "undefined" ∈ colTags o rows name) := by
  have hnd := nodup_keys_accumRows o rows
  have hmem := (mem_keys_accumRows o rows name).mpr hocc
  refine ⟨length_filter_columnInfo _ _ hnd hmem, ?_⟩
  intro d hd hdn
  have h := nullable_columnInfo _ name hnd d hd hdn
  rw [lookupTypes_accumRows] at h
  simpa [mem_obsSet] using h

/-- C2 witness: for the rows [{a: 1}, {}] the name a occurs explicitly
in the first row; the amended theorem applies and its conclusion holds
at this input. -/
theorem c2_absent_no_null_witness :
    (∃ row ∈ [JValue.obj [("a", JValue.num 1)], JValue.obj []],
        ∃ kv ∈ rowKVs row, kv.1 = "a")
    ∧ (((columnInfo (accumRows oracle0
          [JValue.obj [("a", JValue.num 1)], JValue.obj []])).filter
            (fun d => d.name == "a")).length = 1
      ∧ ∀ d ∈ columnInfo (accumRows oracle0
            [JValue.obj [("a", JValue.num 1)], JValue.obj []]), d.name = "a" →
          (d.nullable = true ↔
            "null" ∈ colTags oracle0
                [JValue.obj [("a", JValue.num 1)], JValue.obj []] "a"
            ∨ "undefined" ∈ colTags oracle0
                [JValue.obj [("a", JValue.num 1)], JValue.obj []] "a")) := by
  have h : ∃ row ∈ [JValue.obj [("a", JValue.num 1)], JValue.obj []],
      ∃ kv ∈ rowKVs row, kv.1 = "a" :=
    ⟨JValue.obj [("a", JValue.num 1)], by simp, ("a", JValue.num 1), by simp [rowKVs], rfl⟩
  exact ⟨h, c2_absent_no_null oracle0 _ "a" h⟩

/-- C2 counterexample: the JSON input [{a: 1, b: 2}, {a: 3}] and the
equivalent Excel sheet have a column b that is present in the first
visited row and absent from the second; the claim demands nullable =
true for b, but both processors return nullable = false because the
absence contributed no null observation. -/
theorem c2_counterexample :
    processJSON oracle0
        (JValue.arr [JValue.obj [("a", JValue.num 1), ("b", JValue.num 2)],
          JValue.obj [("a", JValue.num 3)]])
      = ([⟨"a", "integer", false⟩, ⟨"b", "integer", false⟩], 2)
    ∧ processExcel oracle0
        [[("a", JValue.num 1), ("b", JValue.num 2)], [("a", JValue.num 3)]]
      = ([⟨"a", "integer", false⟩, ⟨"b", "integer", false⟩], 2) := by decide

/-- C3: whenever an ingestion attempt fails — unsupported declared
format, parse failure or byte-fetch failure, all of which surface as
an error outcome of the dispatched attempt — the job writes processing
status failed, a descriptive error message and a fresh lastModified;
moreover the job is total, every outcome ends in completed or failed,
so a fault inside the attempt never leaves the record in processing. -/
theorem c3_failure_terminal (rec : DatasetRec) (now : Nat)
    (parsers : String → Except String SchemaResult) (fileType e : String)
    (h : runAttempt parsers fileType = Except.error e) :
    (processFileAsync rec now parsers fileType).processingStatus = "failed"
    ∧ (processFileAsync rec now parsers fileType).errorMessage = some e
    ∧ (processFileAsync rec now parsers fileType).lastModified = now
    ∧ ∀ ft : String, (processFileAsync rec now parsers ft).processingStatus = "completed"
        ∨ (processFileAsync rec now parsers ft).processingStatus = "failed" := by
  refine ⟨by simp [processFileAsync, h], by simp [processFileAsync, h],
    by simp [processFileAsync, h], ?_⟩
  intro ft
  cases hft : runAttempt parsers ft with
  | ok r => exact Or.inl (by simp [processFileAsync, hft])
  | error e2 => exact Or.inr (by simp [processFileAsync, hft])

/-- C3 witness: a dataset whose declared file type is other dispatches to
the default switch branch, the attempt fails with Unsupported file
type, and the job ends in failed with that message and the fresh
stamp. -/
theorem c3_failure_terminal_witness :
    runAttempt (fun _ => Except.ok ⟨[], 0⟩) "other"
        = Except.error "Unsupported file type"
    ∧ ((processFileAsync ⟨[], 0, "processing", none, 0⟩ 5
          (fun _ => Except.ok ⟨[], 0⟩) "other").processingStatus = "failed"
      ∧ (processFileAsync ⟨[], 0, "processing", none, 0⟩ 5
          (fun _ => Except.ok ⟨[], 0⟩) "other").errorMessage
            = some "Unsupported file type"
      ∧ (processFileAsync ⟨[], 0, "processing", none, 0⟩ 5
          (fun _ => Except.ok ⟨[], 0⟩) "other").lastModified = 5
      ∧ (∀ ft : String, (processFileAsync ⟨[], 0, "processing", none, 0⟩ 5
            (fun _ => Except.ok ⟨[], 0⟩) ft).processingStatus = "completed"
          ∨ (processFileAsync ⟨[], 0, "processing", none, 0⟩ 5
            (fun _ => Except.ok ⟨[], 0⟩) ft).processingStatus = "failed")) :=
  ⟨rfl, c3_failure_terminal ⟨[], 0, "processing", none, 0⟩ 5
    (fun _ => Except.ok ⟨[], 0⟩) "other" "Unsupported file type" rfl⟩

/-- C4 (amended): on a successful attempt the job writes the inferred
columns and rowCount, sets processing status completed and bumps
lastModified, but it does not clear a prior errorMessage: the success
update leaves the errorMessage field of the record untouched. -/
theorem c4_success_update (rec : DatasetRec) (now : Nat)
    (parsers : String → Except String SchemaResult) (fileType : String)
    (r : SchemaResult) (h : runAttempt parsers fileType = Except.ok r) :
    processFileAsync rec now parsers fileType =
      { rec with columns := r.columns, rowCount := r.rowCount,
                 processingStatus := "completed", lastModified := now }
    ∧ (processFileAsync rec now parsers fileType).errorMessage = rec.errorMessage := by
  constructor <;> simp [processFileAsync, h]

/-- C4 witness: a concrete record carrying an old error message is
updated by a successful csv attempt; the update writes columns,
rowCount, completed and the stamp, and keeps the old message. -/
theorem c4_success_update_witness :
    runAttempt (fun _ => Except.ok ⟨[⟨"a", "integer", false⟩], 2⟩) "csv"
        = Except.ok ⟨[⟨"a", "integer", false⟩], 2⟩
    ∧ (processFileAsync ⟨[], 0, "processing", some "old failure", 1⟩ 9
          (fun _ => Except.ok ⟨[⟨"a", "integer", false⟩], 2⟩) "csv" =
        { (⟨[], 0, "processing", some "old failure", 1⟩ : DatasetRec) with
            columns := [⟨"a", "integer", false⟩], rowCount := 2,
            processingStatus := "completed", lastModified := 9 }
      ∧ (processFileAsync ⟨[], 0, "processing", some "old failure", 1⟩ 9
          (fun _ => Except.ok ⟨[⟨"a", "integer", false⟩], 2⟩) "csv").errorMessage
            = (⟨[], 0, "processing", some "old failure", 1⟩ : DatasetRec).errorMessage) :=
  ⟨rfl, c4_success_update ⟨[], 0, "processing", some "old failure", 1⟩ 9
    (fun _ => Except.ok ⟨[⟨"a", "integer", false⟩], 2⟩) "csv"
    ⟨[⟨"a", "integer", false⟩], 2⟩ rfl⟩

/-- C4 counterexample: a record holds the prior message "previous
failure"; a successful attempt completes the record, yet the error
message is still "previous failure" afterwards — the claim that the
job clears any prior errorMessage on success is false. -/
theorem c4_counterexample :
    (processFileAsync ⟨[], 0, "processing", some "previous failure", 0⟩ 7
        (fun _ => Except.ok ⟨[], 3⟩) "csv").processingStatus = "completed"
    ∧ (processFileAsync ⟨[], 0, "processing", some "previous failure", 0⟩ 7
        (fun _ => Except.ok ⟨[], 3⟩) "csv").errorMessage = some "previous failure"
    ∧ some "previous failure" ≠ (none : Option String)
    ∧ some "previous failure" ≠ some "" := by decide

/-- C5: a processing request for a dataset record whose status is
already processing is rejected with the CustomError Dataset is already
being processed (HTTP 400) and the record is returned unchanged: no
field is mutated, so the outcome of the running attempt stands. -/
theorem c5_conflict_reject (rec : DatasetRec) (now : Nat)
    (h : rec.processingStatus = "processing") :
    processFileEndpoint rec now
      = (some ⟨"Dataset is already being processed", 400⟩, rec) := by
  simp [processFileEndpoint, h]

/-- C5 witness: a concrete record in processing is rejected and left
untouched. -/
theorem c5_conflict_reject_witness :
    (⟨[], 4, "processing", none, 2⟩ : DatasetRec).processingStatus = "processing"
    ∧ processFileEndpoint ⟨[], 4, "processing", none, 2⟩ 8
        = (some ⟨"Dataset is already being processed", 400⟩,
           ⟨[], 4, "processing", none, 2⟩) :=
  ⟨rfl, c5_conflict_reject ⟨[], 4, "processing", none, 2⟩ 8 rfl⟩

/-- C6: detectType tries date parsing before numeric parsing on
non-empty strings: whenever the date oracle accepts the string the tag
is date, even if the string would also parse as a number; the tag
number is produced only for strings the date oracle rejects and the
numeric oracle accepts. -/
theorem c6_date_before_number (o : StrOracle) (s : String) :
    (s ≠ "" → o.dateParses s = true → detectType o (JValue.str s) = "date")
    ∧ (detectType o (JValue.str s) = "number" →
        o.dateParses s = false ∧ o.numParses s = true) := by
  constructor
  · intro hne hd
    simp [detectType, hne, hd]
  · intro h
    by_cases he : s = ""
    · rw [detectType, if_pos he] at h
      exact absurd h (by decide)
    · by_cases hd : o.dateParses s
      · rw [detectType, if_neg he, if_pos hd] at h
        exact absurd h (by decide)
      · by_cases hn : o.numParses s
        · exact ⟨by simpa using hd, hn⟩
        · rw [detectType, if_neg he, if_neg (by simpa using hd),
            if_neg (by simpa using hn)] at h
          exact absurd h (by decide)

/-- C6 witness: under the oracle recording that the JS runtime parses
"2024" both as a date and as a number, detectType returns date and not
number for "2024". -/
theorem c6_date_before_number_witness :
    ("2024" : String) ≠ ""
    ∧ oracle2024.dateParses "2024" = true
    ∧ oracle2024.numParses "2024" = true
    ∧ detectType oracle2024 (JValue.str "2024") = "date"
    ∧ detectType oracle2024 (JValue.str "2024") ≠ "number" := by
  have h := (c6_date_before_number oracle2024 "2024").1 (by decide) (by decide)
  exact ⟨by decide, by decide, by decide, h, by rw [h]; decide⟩

/-- C8: the nullable flag of a unified column records exactly whether a
null-tag observation occurred, independently of the resolved type:
the two example unifications of the claim hold, and in general the
flag equals the test for a null or undefined tag among the row
observations. -/
theorem c8_nullable_independent :
    unifyColumn ["null", "integer", "integer"] = ("integer", true)
    ∧ unifyColumn ["integer", "integer"] = ("integer", false)
    ∧ ∀ ts : List String,
        (unifyColumn ts).2 = decide ("null" ∈ ts ∨ "undefined" ∈ ts) := by
  refine ⟨by decide, by decide, ?_⟩
  intro ts
  simp [unifyColumn, unifyNullable, decide_eq_decide, mem_obsSet]

theorem find?_isArr_append (pre : List (String × JValue)) (k : String)
    (xs : List JValue) (post : List (String × JValue))
    (hpre : ∀ kv ∈ pre, isArrB kv.2 = false) :
    (pre ++ (k, JValue.arr xs) :: post).find? (fun kv => isArrB kv.2)
      = some (k, JValue.arr xs) := by
  induction pre with
  | nil =>
      rw [List.nil_append]
      rw [List.find?_cons_of_pos _ (by rfl)]
  | cons p pre ih =>
      have h0 : isArrB p.2 = false := hpre p (by simp)
      rw [show (p :: pre) ++ (k, JValue.arr xs) :: post
          = p :: (pre ++ (k, JValue.arr xs) :: post) from rfl]
      rw [List.find?_cons]
      simp only [h0, Bool.false_eq_true, cond_false]
      exact ih (fun kv hkv => hpre kv (by simp [hkv]))

/-- C7: the JSON row extraction follows the decoded root value: an array
root makes every element a row; an object root whose properties before
the first array-valued one are all non-arrays yields exactly the
elements of that first array-valued property; an object none of whose
property values is an array is itself the single row. -/
theorem c7_json_root :
    (∀ xs : List JValue, jsonRows (JValue.arr xs) = xs)
    ∧ (∀ (pre : List (String × JValue)) (k : String) (xs : List JValue)
          (post : List (String × JValue)),
        (∀ kv ∈ pre, isArrB kv.2 = false) →
        jsonRows (JValue.obj (pre ++ (k, JValue.arr xs) :: post)) = xs)
    ∧ (∀ kvs : List (String × JValue),
        (∀ kv ∈ kvs, isArrB kv.2 = false) →
        jsonRows (JValue.obj kvs) = [JValue.obj kvs]) := by
  refine ⟨fun xs => rfl, ?_, ?_⟩
  · intro pre k xs post hpre
    simp [jsonRows, find?_isArr_append pre k xs post hpre, arrElems]
  · intro kvs hk
    have hnone : kvs.find? (fun kv => isArrB kv.2) = none :=
      List.find?_eq_none.mpr (fun kv hkv => by simp [hk kv hkv])
    simp [jsonRows, hnone]

/-- C7 witness: for the root object with a non-array meta property
followed by the array-valued items property, the rows are exactly the
two objects inside items. -/
theorem c7_json_root_witness :
    (∀ kv ∈ [("meta", JValue.obj [("version", JValue.num 1)])], isArrB kv.2 = false)
    ∧ jsonRows (JValue.obj [("meta", JValue.obj [("version", JValue.num 1)]),
        ("items", JValue.arr [JValue.obj [("x", JValue.num 1)],
                              JValue.obj [("x", JValue.num 2)]])])
      = [JValue.obj [("x", JValue.num 1)], JValue.obj [("x", JValue.num 2)]] := by
  have h : ∀ kv ∈ [("meta", JValue.obj [("version", JValue.num (1 : Rat))])],
      isArrB kv.2 = false := by
    intro kv hkv
    rw [List.mem_singleton.mp hkv]
    rfl
  exact ⟨h, c7_json_root.2.1 [("meta", JValue.obj [("version", JValue.num 1)])]
    "items" [JValue.obj [("x", JValue.num 1)], JValue.obj [("x", JValue.num 2)]] [] h⟩

/-- C9 (amended): admission accepts exactly the uploads whose lowercased
extension without its dot contains one of the substrings csv, json,
xlsx, xls — a substring regex test, not membership of the extension in
the four-element list — whose MIME type is in the single global
allow-list, not an allow-list paired with the extension, and whose
byte size is positive and at most the configured maximum; a rejected
upload creates no Dataset record, an admitted one creates the pending
record. -/
theorem c9_admission (fname mime : String) (size maxSize now : Nat) :
    (uploadGate fname mime size maxSize = none ↔
      (extRegexTest (extNoDotLower fname) = true ∧ mime ∈ allowedMimeTypes
        ∧ 0 < size ∧ size ≤ maxSize))
    ∧ (uploadGate fname mime size maxSize ≠ none →
        uploadPipeline fname mime size maxSize now = none)
    ∧ (uploadGate fname mime size maxSize = none →
        uploadPipeline fname mime size maxSize now
          = some ⟨[], 0, "pending", none, now⟩) := by
  refine ⟨?_, ?_, ?_⟩
  · unfold uploadGate fileFilter
    split_ifs with h1 h2 h3
    · simp only [Bool.not_eq_true', Bool.and_eq_false_iff] at h1
      constructor
      · intro h; cases h
      · rintro ⟨hext, hmime, _, _⟩
        rcases h1 with h1 | h1
        · rw [hext] at h1; cases h1
        · have hc : allowedMimeTypes.contains mime = true := by simpa using hmime
          rw [h1] at hc
          exact Bool.false_ne_true hc
    · constructor
      · intro h; cases h
      · rintro ⟨_, _, _, hle⟩
        omega
    · constructor
      · intro h; cases h
      · rintro ⟨_, _, hpos, _⟩
        omega
    · have h1b : (extRegexTest (extNoDotLower fname)
          && allowedMimeTypes.contains mime) = true := by
        simpa using h1
      rcases Bool.and_eq_true_iff.mp h1b with ⟨hext, hmime⟩
      refine iff_of_true rfl ⟨hext, by simpa using hmime, by omega, by omega⟩
  · intro h
    unfold uploadPipeline
    cases ha : uploadGate fname mime size maxSize with
    | none => exact absurd ha h
    | some msg => rfl
  · intro h
    unfold uploadPipeline
    rw [h]

/-- C9 witness: the upload a.txt with MIME text/csv is rejected by the
admission chain and no Dataset record is created for it. -/
theorem c9_admission_witness :
    uploadGate "a.txt" "text/csv" 5 10485760 ≠ none
    ∧ uploadPipeline "a.txt" "text/csv" 5 10485760 3 = none :=
  ⟨by decide, (c9_admission "a.txt" "text/csv" 5 10485760 3).2.1 (by decide)⟩

/-- C9 counterexample: the upload data.scsv has the extension .scsv,
which is not one of .csv/.json/.xlsx/.xls, yet with MIME text/csv and
size 5 it is admitted and a pending Dataset record is created, because
the regex only tests substring containment; likewise a.csv with the
mismatched MIME application/json is admitted, because the allow-list
is global rather than per extension. -/
theorem c9_counterexample :
    extname "data.scsv" = ".scsv"
    ∧ (".scsv" : String) ∉ [".csv", ".json", ".xlsx", ".xls"]
    ∧ uploadGate "data.scsv" "text/csv" 5 10485760 = none
    ∧ uploadPipeline "data.scsv" "text/csv" 5 10485760 7
        = some ⟨[], 0, "pending", none, 7⟩
    ∧ uploadGate "a.csv" "application/json" 5 10485760 = none := by decide

theorem foldl_ensureKey_fresh :
    ∀ (hs : List String) (acc : List (String × List String)),
      hs.Nodup → (∀ h ∈ hs, acc.any (fun p => p.1 == h) = false) →
      hs.foldl ensureKey acc = acc ++ hs.map (fun h => (h, [])) := by
  intro hs
  induction hs with
  | nil => intro acc _ _; simp
  | cons h hs ih =>
      intro acc hnd hfresh
      have hh : acc.any (fun p => p.1 == h) = false := hfresh h (by simp)
      have hstep : ensureKey acc h = acc ++ [(h, [])] := by simp [ensureKey, hh]
      have hfresh2 : ∀ u ∈ hs, (acc ++ [(h, [])]).any (fun p => p.1 == u) = false := by
        intro u hu
        have hut : h ≠ u := by
          intro he
          exact (List.nodup_cons.mp hnd).1 (he ▸ hu)
        simp [List.any_append, hfresh u (List.mem_cons_of_mem _ hu), hut]
      have := ih (acc ++ [(h, [])]) (List.nodup_cons.mp hnd).2 hfresh2
      simp only [List.foldl_cons, hstep, this, List.map_cons, List.append_assoc,
        List.singleton_append]

theorem initCols_of_nodup (headers : List String) (hnd : headers.Nodup) :
    initCols headers = headers.map (fun h => (h, [])) := by
  have := foldl_ensureKey_fresh headers [] hnd (by simp)
  simpa [initCols] using this

/-- C10: a CSV file with a header row and no data rows is processed
without error into rowCount 0 and one descriptor per header column,
each of type unknown with nullable false, because no type observation
is ever accumulated for any column. -/
theorem c10_header_only_csv (o : StrOracle) (headers : List String)
    (hnd : headers.Nodup) :
    processCSV o headers []
      = (headers.map (fun h => ⟨h, "unknown", false⟩), 0) := by
  simp only [processCSV, List.foldl_nil, initCols_of_nodup headers hnd, columnInfo,
    List.map_map]
  rfl

/-- C10 witness: the two-column header row a,b with no data rows yields
two unknown, non-nullable descriptors and rowCount 0. -/
theorem c10_header_only_csv_witness :
    (["a", "b"] : List String).Nodup
    ∧ processCSV oracle0 ["a", "b"] []
        = ([⟨"a", "unknown", false⟩, ⟨"b", "unknown", false⟩], 0) :=
  ⟨by decide, c10_header_only_csv oracle0 ["a", "b"] (by decide)⟩

end Dashboard
